import Mathlib

/-! Shallow embedding of the replication core of the territory-mapper
repository, from `src/app/lib/db/replication/supabase.ts` and
`src/app/lib/db/rxdb/index.ts`.

Modelling conventions:
* A replicated document is a record with the fields relevant to the
  replication logic (`id`, `congregation_id`, `updated_at`) plus one
  opaque `payload` field standing for all remaining columns.  The source
  stores `updated_at` as an ISO-8601 string and compares it either
  lexically (the remote `gt` query) or chronologically
  (`new Date(s).getTime()`); per the interface contract these two orders
  agree, so timestamps are embedded as `Nat`.
* A collection (local RxDB collection or remote table) is a `List Doc`;
  `findOne(id)` is `List.find?` on the id, RxDB `update` with a full
  `$set` replaces the document with the given id, `insert` appends.
* Network-dependent steps take an explicit error-injection flag; a
  thrown error is an `Except.error`.  The mutable per-collection
  `replicationStates` map and the module-level database promise are
  threaded explicitly as state.
-/

/-- A replicated document as seen by the replication layer: primary key,
tenant id, last-modified timestamp, and an opaque remainder of fields. -/
structure Doc where
  id : String
  congregation_id : String
  updated_at : Nat
  payload : String
deriving DecidableEq, Repr

/-- The per-collection replication state of `supabase.ts`
(`interface ReplicationState`). -/
structure RepState where
  isActive : Bool
  lastSync : Option Nat
  pendingChanges : Nat
  error : Option String
deriving DecidableEq, Repr

/-- The state `getReplicationState` creates on first access. -/
def initialRepState : RepState :=
  { isActive := false, lastSync := none, pendingChanges := 0, error := none }

/-- The ascending `updated_at` order used by the pull query
(`order('updated_at', ascending: true)`). -/
def updatedAtLE (a b : Doc) : Prop := a.updated_at ≤ b.updated_at

instance : DecidableRel updatedAtLE := fun a b => Nat.decLe a.updated_at b.updated_at

/-- The remote query built by `pullFromSupabase`: all rows of the table
whose `congregation_id` equals the tenant and, when a cursor is given,
whose `updated_at` is strictly greater, ordered by `updated_at`
ascending. -/
def remoteQuery (remote : List Doc) (congregationId : String) (since : Option Nat) :
    List Doc :=
  List.insertionSort updatedAtLE
    (remote.filter (fun d =>
      d.congregation_id == congregationId &&
        (match since with
         | some s => decide (s < d.updated_at)
         | none => true)))

/-- The predicate RxDB `findOne(id)` applies: match on the primary key. -/
def byId (i : String) : Doc → Bool := fun x => x.id == i

/-- RxDB `existing.update to set all fields of doc` : replace the document
carrying the given id by the incoming document. -/
def setDoc (l : List Doc) (d : Doc) : List Doc :=
  l.map (fun x => if x.id == d.id then d else x)

/-- One iteration of the pull loop body: look the incoming document up by
id; if present, overwrite only when the server timestamp is strictly
greater; if absent, insert. -/
def applyPullDoc (l : List Doc) (d : Doc) : List Doc :=
  match l.find? (byId d.id) with
  | some existing =>
      if existing.updated_at < d.updated_at then setDoc l d else l
  | none => l ++ [d]

/-- The pull loop over all fetched documents, in query order. -/
def applyPullDocs (l : List Doc) (ds : List Doc) : List Doc :=
  ds.foldl applyPullDoc l

/-- Result of a pull: the value returned (or error thrown), the local
collection after the loop, and the replication state after the call. -/
structure PullOut where
  result : Except String Nat
  localColl : List Doc
  state : RepState
deriving Repr

/-- Embedding of `pullFromSupabase`.  `netError` injects the remote-query
failure path.  On success the function applies every fetched document
through `applyPullDoc`, advances `lastSync` to the `updated_at` of the
last fetched document (the query is sorted ascending), and returns the
number of fetched documents. -/
def pullFromSupabase (remote localColl : List Doc) (st : RepState)
    (congregationId : String) (since : Option Nat) (netError : Bool) : PullOut :=
  if netError then
    { result := Except.error "pull failed",
      localColl := localColl,
      state := { st with isActive := false, error := some "pull failed" } }
  else
    let docs := remoteQuery remote congregationId since
    match docs.getLast? with
    | none =>
        { result := Except.ok 0, localColl := localColl,
          state := { st with isActive := false } }
    | some lastDoc =>
        { result := Except.ok docs.length,
          localColl := applyPullDocs localColl docs,
          state := { st with lastSync := some lastDoc.updated_at, isActive := false } }

/-- The set of documents `pushToSupabase` selects for transmission: local
documents of the tenant whose `updated_at` is strictly past the cursor
(all of them when no cursor exists). -/
def pushBatch (localColl : List Doc) (congregationId : String) (since : Option Nat) :
    List Doc :=
  let docs := localColl.filter (fun d => d.congregation_id == congregationId)
  match since with
  | some s => docs.filter (fun d => decide (s < d.updated_at))
  | none => docs

/-- Remote upsert of a single row with conflict key `id`: replace the row
with the same id when present, append otherwise. -/
def upsertOne (remote : List Doc) (r : Doc) : List Doc :=
  if remote.any (fun x => x.id == r.id) then
    remote.map (fun x => if x.id == r.id then r else x)
  else remote ++ [r]

/-- The batch upsert issued by `pushToSupabase`. -/
def upsertAll (remote : List Doc) (rs : List Doc) : List Doc :=
  rs.foldl upsertOne remote

/-- Result of a push: the value returned (or error thrown), the remote
table after the upsert, and the replication state after the call. -/
structure PushOut where
  result : Except String Nat
  remote : List Doc
  state : RepState
deriving Repr

/-- Embedding of `pushToSupabase`.  The cursor is read from the current
replication state (`const since = state.lastSync`).  When the batch is
empty the function returns 0 without touching the remote store; after a
successful upsert it advances `lastSync` to the `updated_at` of the LAST
record of the batch (the batch is in local query order, not sorted). -/
def pushToSupabase (remote localColl : List Doc) (st : RepState)
    (congregationId : String) (netError : Bool) : PushOut :=
  let records := pushBatch localColl congregationId st.lastSync
  match records.getLast? with
  | none =>
      { result := Except.ok 0, remote := remote,
        state := { st with isActive := false } }
  | some lastRecord =>
      if netError then
        { result := Except.error "push failed", remote := remote,
          state := { st with isActive := false, error := some "push failed" } }
      else
        { result := Except.ok records.length,
          remote := upsertAll remote records,
          state :=
            { st with
              lastSync := some lastRecord.updated_at
              pendingChanges := 0
              isActive := false } }

/-- Result of a bidirectional sync of one collection. -/
structure SyncOut where
  result : Except String (Nat × Nat)
  remote : List Doc
  localColl : List Doc
  state : RepState
deriving Repr

/-- Embedding of `syncCollection`: read the cursor from the state, pull
with it, then push; the push re-reads the state that the pull may have
modified.  An error in either direction propagates, with the state
mutations made up to that point kept. -/
def syncCollection (remote localColl : List Doc) (st : RepState)
    (congregationId : String) (pullErr pushErr : Bool) : SyncOut :=
  let since := st.lastSync
  let p := pullFromSupabase remote localColl st congregationId since pullErr
  match p.result with
  | Except.error e =>
      { result := Except.error e, remote := remote,
        localColl := p.localColl, state := p.state }
  | Except.ok pulled =>
      let q := pushToSupabase remote p.localColl p.state congregationId pushErr
      match q.result with
      | Except.error e =>
          { result := Except.error e, remote := q.remote,
            localColl := p.localColl, state := q.state }
      | Except.ok pushed =>
          { result := Except.ok (pulled, pushed), remote := q.remote,
            localColl := p.localColl, state := q.state }

/-- The three replicated collection names `syncAll` iterates over. -/
inductive CollName where
  | territories
  | houses
  | assignments
deriving DecidableEq, Repr

/-- A total map from collection names, standing for the per-collection
records and maps of the source (remote tables, local collections, the
`replicationStates` map). -/
structure PerColl (α : Type) where
  territories : α
  houses : α
  assignments : α
deriving DecidableEq, Repr

def PerColl.get {α : Type} (p : PerColl α) : CollName → α
  | CollName.territories => p.territories
  | CollName.houses => p.houses
  | CollName.assignments => p.assignments

def PerColl.set {α : Type} (p : PerColl α) : CollName → α → PerColl α
  | CollName.territories, v => { p with territories := v }
  | CollName.houses, v => { p with houses := v }
  | CollName.assignments, v => { p with assignments := v }

/-- The world a sync runs in: the remote tables, the local collections of
the currently open database, and the module-level `replicationStates`
map.  That map is keyed by collection name only — it carries no tenant
component, exactly as in the source.  The two error flags inject
network failures per collection. -/
structure World where
  remote : PerColl (List Doc)
  localDb : PerColl (List Doc)
  states : PerColl RepState
  pullErr : PerColl Bool
  pushErr : PerColl Bool
deriving Repr

/-- Result of `syncCollection` at the world level. -/
structure SyncWOut where
  result : Except String (Nat × Nat)
  world : World
deriving Repr

/-- `syncCollection` lifted to the world: it reads and writes the shared
per-collection structures selected by the collection name. -/
def syncCollectionW (W : World) (c : CollName) (congregationId : String) : SyncWOut :=
  let s := syncCollection (W.remote.get c) (W.localDb.get c) (W.states.get c)
    congregationId (W.pullErr.get c) (W.pushErr.get c)
  { result := s.result,
    world :=
      { W with
        remote := W.remote.set c s.remote
        localDb := W.localDb.set c s.localColl
        states := W.states.set c s.state } }

/-- One iteration of the `syncAll` loop: sync the collection; on error,
log and record a zero result, then continue. -/
def syncAllStep (congregationId : String) (acc : PerColl (Nat × Nat) × World)
    (c : CollName) : PerColl (Nat × Nat) × World :=
  let s := syncCollectionW acc.2 c congregationId
  match s.result with
  | Except.ok r => (acc.1.set c r, s.world)
  | Except.error _ => (acc.1.set c (0, 0), s.world)

/-- Embedding of `syncAll`: territories, houses, assignments in sequence,
every entry of the result record written exactly once (the `(0, 0)`
initial values of the accumulator are always overwritten). -/
def syncAll (W : World) (congregationId : String) : PerColl (Nat × Nat) × World :=
  [CollName.territories, CollName.houses, CollName.assignments].foldl
    (syncAllStep congregationId) (⟨(0, 0), (0, 0), (0, 0)⟩, W)

/-- Event kinds of the realtime feed. -/
inductive RtEventType where
  | insert
  | update
  | delete
deriving DecidableEq, Repr

/-- One event of the realtime change feed.  For insert/update events
`doc` is the payload `new` row; for delete events it is the old row, of
which the handler uses only the id (and the store's tenant filter uses
the tenant id). -/
structure FeedEvent where
  eventType : RtEventType
  doc : Doc
deriving DecidableEq, Repr

/-- Modelled from the spec (section 6, Remote Record Store API): the
realtime subscription opened by `subscribeToChanges` carries the filter
`congregation_id=eq.<tenant>`, and the remote store delivers to the
callback exactly the events of the table whose row matches that tenant
filter.  The filtering itself happens in the external store; the source
only states the filter. -/
def deliveredEvents (feed : List FeedEvent) (congregationId : String) : List FeedEvent :=
  feed.filter (fun e => e.doc.congregation_id == congregationId)

/-- Embedding of the realtime callback installed by
`initializeReplication` on each collection: insert/update events look the
document up by id and overwrite it when present (full `$set`, with no
timestamp comparison) or insert it when absent; delete events remove the
found document, also with no timestamp comparison. -/
def handleRealtimeEvent (localColl : List Doc) (ev : FeedEvent) : List Doc :=
  match ev.eventType with
  | RtEventType.insert | RtEventType.update =>
      (match localColl.find? (byId ev.doc.id) with
       | some _ => setDoc localColl ev.doc
       | none => localColl ++ [ev.doc])
  | RtEventType.delete =>
      (match localColl.find? (byId ev.doc.id) with
       | some existing => localColl.eraseP (byId existing.id)
       | none => localColl)

/-- A live local database instance, identified by the name it was created
under (`territory_mapper_` ++ tenant id in `initDatabase`). -/
structure DbInstance where
  name : String
deriving DecidableEq, Repr

/-- The database name `initDatabase` namespaces by tenant. -/
def dbName (congregationId : String) : String :=
  "territory_mapper_" ++ congregationId

/-- Embedding of `initDatabase` from `rxdb/index.ts`: the module-level
`dbPromise` cache is the explicit `cached` argument; if a database
promise is cached it is returned as is, with no comparison against the
requested tenant; otherwise a database named for the tenant is created
and cached.  Returns the instance handed to the caller and the new cache
content. -/
def initDatabase (cached : Option DbInstance) (congregationId : String) :
    DbInstance × Option DbInstance :=
  match cached with
  | some db => (db, some db)
  | none =>
      let db : DbInstance := { name := dbName congregationId }
      (db, some db)

/-- A sample world in which tenant A has one remote territory document with
`updated_at` 5 and nothing local; an A sync of territories advances the shared
cursor to 5. -/
def sampleWorldTenantA : World :=
  { remote := ⟨[⟨"x", "A", 5, "r"⟩], [], []⟩
    localDb := ⟨[], [], []⟩
    states := ⟨initialRepState, initialRepState, initialRepState⟩
    pullErr := ⟨false, false, false⟩
    pushErr := ⟨false, false, false⟩ }

/-! Helper lemmas about the embedded operations. -/

theorem find?_byId_cons (i : String) (a : Doc) (l : List Doc) :
    List.find? (byId i) (a :: l)
      = if a.id = i then some a else List.find? (byId i) l := by
  by_cases h : a.id = i
  · rw [if_pos h]
    exact List.find?_cons_of_pos _ (by simp [byId, h])
  · rw [if_neg h]
    exact List.find?_cons_of_neg _ (by simp [byId, h])

theorem setDoc_cons (a : Doc) (l : List Doc) (d : Doc) :
    setDoc (a :: l) d = (if a.id = d.id then d else a) :: setDoc l d := by
  simp only [setDoc, List.map_cons]
  congr 1
  by_cases h : a.id = d.id <;> simp [h]

theorem find?_setDoc_self {l : List Doc} {d e : Doc}
    (h : l.find? (byId d.id) = some e) :
    (setDoc l d).find? (byId d.id) = some d := by
  induction l with
  | nil => simp [List.find?] at h
  | cons a l ih =>
    rw [find?_byId_cons] at h
    rw [setDoc_cons]
    by_cases ha : a.id = d.id
    · rw [if_pos ha, find?_byId_cons, if_pos rfl]
    · rw [if_neg ha] at h
      rw [if_neg ha, find?_byId_cons, if_neg ha]
      exact ih h

theorem find?_setDoc_ne {l : List Doc} {d : Doc} {i : String}
    (hi : i ≠ d.id) :
    (setDoc l d).find? (byId i) = l.find? (byId i) := by
  induction l with
  | nil => simp [setDoc]
  | cons a l ih =>
    rw [setDoc_cons, find?_byId_cons, find?_byId_cons]
    by_cases ha : a.id = d.id
    · rw [if_pos ha]
      rw [if_neg (fun h => hi h.symm), if_neg (fun h => hi (ha.symm.trans h).symm)]
      exact ih
    · rw [if_neg ha]
      by_cases hai : a.id = i
      · rw [if_pos hai, if_pos hai]
      · rw [if_neg hai, if_neg hai]
        exact ih

theorem applyPullDoc_eq (l : List Doc) (d : Doc) :
    applyPullDoc l d
      = match l.find? (byId d.id) with
        | some existing =>
            if existing.updated_at < d.updated_at then setDoc l d else l
        | none => l ++ [d] := rfl

theorem applyPullDoc_find?_ne {l : List Doc} {d : Doc} {i : String}
    (hi : i ≠ d.id) :
    (applyPullDoc l d).find? (byId i) = l.find? (byId i) := by
  rw [applyPullDoc_eq]
  cases hf : l.find? (byId d.id) with
  | none =>
    simp only [List.find?_append]
    have h1 : List.find? (byId i) [d] = none := by
      have hne : ¬d.id = i := fun h => hi h.symm
      have hb : (byId i d) = false := by simp [byId, hne]
      simp [List.find?, hb]
    rw [h1]
    cases l.find? (byId i) <;> rfl
  | some e =>
    by_cases hcmp : e.updated_at < d.updated_at
    · simp only [hcmp, if_true]
      exact find?_setDoc_ne hi
    · simp [hcmp]

theorem applyPullDocs_find?_ne {ds : List Doc} {l : List Doc} {i : String}
    (h : ∀ e ∈ ds, e.id ≠ i) :
    (applyPullDocs l ds).find? (byId i) = l.find? (byId i) := by
  induction ds generalizing l with
  | nil => rfl
  | cons e rest ih =>
    have h1 : (applyPullDocs l (e :: rest)) = applyPullDocs (applyPullDoc l e) rest := rfl
    rw [h1, ih (fun x hx => h x (List.mem_cons_of_mem e hx))]
    exact applyPullDoc_find?_ne (fun hie => h e (List.mem_cons_self e rest) hie.symm)

theorem applyPullDoc_found {l : List Doc} {d dl : Doc}
    (hl : l.find? (byId d.id) = some dl) :
    (applyPullDoc l d).find? (byId d.id)
      = some (if dl.updated_at < d.updated_at then d else dl) := by
  rw [applyPullDoc_eq, hl]
  by_cases h : dl.updated_at < d.updated_at
  · simp only [h, if_true]
    exact find?_setDoc_self hl
  · simp [h, hl]

theorem applyPullDocs_newer_wins {ds : List Doc} {l : List Doc} {dl d : Doc}
    (hnd : (ds.map Doc.id).Nodup)
    (hd : d ∈ ds)
    (hl : l.find? (byId d.id) = some dl) :
    (applyPullDocs l ds).find? (byId d.id)
      = some (if dl.updated_at < d.updated_at then d else dl) := by
  induction ds generalizing l with
  | nil => cases hd
  | cons e rest ih =>
    rw [List.map_cons, List.nodup_cons] at hnd
    obtain ⟨he, hrest⟩ := hnd
    rcases List.mem_cons.mp hd with rfl | hmem
    · have hskip : ∀ x ∈ rest, x.id ≠ d.id := by
        intro x hx hxe
        exact he (hxe ▸ List.mem_map_of_mem Doc.id hx)
      have h1 : (applyPullDocs l (d :: rest)) = applyPullDocs (applyPullDoc l d) rest := rfl
      rw [h1, applyPullDocs_find?_ne hskip]
      exact applyPullDoc_found hl
    · have hene : e.id ≠ d.id := by
        intro hid
        exact he (hid ▸ List.mem_map_of_mem Doc.id hmem)
      have h1 : (applyPullDocs l (e :: rest)) = applyPullDocs (applyPullDoc l e) rest := rfl
      rw [h1]
      exact ih hrest hmem (by rw [applyPullDoc_find?_ne (fun h => hene h.symm)]; exact hl)

theorem pull_result_ok (R L : List Doc) (st : RepState) (t : String) (s : Option Nat) :
    (pullFromSupabase R L st t s false).result
      = Except.ok (remoteQuery R t s).length := by
  cases h : (remoteQuery R t s).getLast? with
  | none =>
    have he : remoteQuery R t s = [] := List.getLast?_eq_none_iff.mp h
    simp [pullFromSupabase, h, he]
  | some d => simp [pullFromSupabase, h]

theorem pull_localColl (R L : List Doc) (st : RepState) (t : String) (s : Option Nat) :
    (pullFromSupabase R L st t s false).localColl
      = applyPullDocs L (remoteQuery R t s) := by
  cases h : (remoteQuery R t s).getLast? with
  | none =>
    have he : remoteQuery R t s = [] := List.getLast?_eq_none_iff.mp h
    simp [pullFromSupabase, h, he, applyPullDocs]
  | some d => simp [pullFromSupabase, h]

theorem pull_state_lastSync (R L : List Doc) (st : RepState) (t : String) (s : Option Nat) :
    (pullFromSupabase R L st t s false).state.lastSync
      = match (remoteQuery R t s).getLast? with
        | some d => some d.updated_at
        | none => st.lastSync := by
  cases h : (remoteQuery R t s).getLast? with
  | none => simp [pullFromSupabase, h]
  | some d => simp [pullFromSupabase, h]

theorem pull_error (R L : List Doc) (st : RepState) (t : String) (s : Option Nat) :
    (pullFromSupabase R L st t s true).result = Except.error "pull failed" := rfl

theorem push_result_ok (R L : List Doc) (st : RepState) (t : String) :
    (pushToSupabase R L st t false).result
      = Except.ok (pushBatch L t st.lastSync).length := by
  cases h : (pushBatch L t st.lastSync).getLast? with
  | none =>
    have he : pushBatch L t st.lastSync = [] := List.getLast?_eq_none_iff.mp h
    simp [pushToSupabase, h, he]
  | some r => simp [pushToSupabase, h]

theorem push_remote (R L : List Doc) (st : RepState) (t : String) :
    (pushToSupabase R L st t false).remote
      = upsertAll R (pushBatch L t st.lastSync) := by
  cases h : (pushBatch L t st.lastSync).getLast? with
  | none =>
    have he : pushBatch L t st.lastSync = [] := List.getLast?_eq_none_iff.mp h
    simp [pushToSupabase, h, he, upsertAll]
  | some r => simp [pushToSupabase, h]

theorem push_state_lastSync (R L : List Doc) (st : RepState) (t : String) :
    (pushToSupabase R L st t false).state.lastSync
      = match (pushBatch L t st.lastSync).getLast? with
        | some r => some r.updated_at
        | none => st.lastSync := by
  cases h : (pushBatch L t st.lastSync).getLast? with
  | none => simp [pushToSupabase, h]
  | some r => simp [pushToSupabase, h]

theorem syncCollection_ok (R L : List Doc) (st : RepState) (t : String) :
    ∃ r, (syncCollection R L st t false false).result = Except.ok r := by
  simp only [syncCollection]
  rw [pull_result_ok]
  rw [push_result_ok]
  exact ⟨_, rfl⟩

theorem syncCollection_components (R L : List Doc) (st : RepState) (t : String) :
    (syncCollection R L st t false false).localColl
        = (pullFromSupabase R L st t st.lastSync false).localColl
    ∧ (syncCollection R L st t false false).remote
        = (pushToSupabase R
            (pullFromSupabase R L st t st.lastSync false).localColl
            (pullFromSupabase R L st t st.lastSync false).state t false).remote
    ∧ (syncCollection R L st t false false).state
        = (pushToSupabase R
            (pullFromSupabase R L st t st.lastSync false).localColl
            (pullFromSupabase R L st t st.lastSync false).state t false).state := by
  simp only [syncCollection]
  rw [pull_result_ok]
  rw [push_result_ok]
  exact ⟨rfl, rfl, rfl⟩

theorem syncCollection_pullErr (R L : List Doc) (st : RepState) (t : String) (pe : Bool) :
    (syncCollection R L st t true pe).result = Except.error "pull failed" := rfl

theorem mem_remoteQuery {R : List Doc} {t : String} {s : Option Nat} {d : Doc} :
    d ∈ remoteQuery R t s ↔
      d ∈ R ∧ d.congregation_id = t ∧ (∀ c, s = some c → c < d.updated_at) := by
  unfold remoteQuery
  rw [List.Perm.mem_iff (List.perm_insertionSort _ _), List.mem_filter]
  cases s with
  | none => simp
  | some c => simp [and_assoc]

theorem remoteQuery_ids_nodup {R : List Doc} {t : String} {s : Option Nat}
    (h : (R.map Doc.id).Nodup) :
    ((remoteQuery R t s).map Doc.id).Nodup := by
  unfold remoteQuery
  refine (List.Perm.nodup_iff (List.Perm.map Doc.id (List.perm_insertionSort _ _))).mpr ?_
  exact List.Nodup.sublist (List.Sublist.map Doc.id (List.filter_sublist R)) h

theorem mem_pushBatch {l : List Doc} {t : String} {s : Option Nat} {d : Doc} :
    d ∈ pushBatch l t s ↔
      d ∈ l ∧ d.congregation_id = t ∧ (∀ c, s = some c → c < d.updated_at) := by
  unfold pushBatch
  cases s with
  | none => simp [List.mem_filter]
  | some c =>
    simp only [List.mem_filter, decide_eq_true_eq, beq_iff_eq, and_assoc]
    constructor
    · rintro ⟨h1, h2, h3⟩
      exact ⟨h1, h2, fun c hc => Option.some.inj hc ▸ h3⟩
    · rintro ⟨h1, h2, h3⟩
      exact ⟨h1, h2, h3 c rfl⟩

theorem mem_applyPullDoc {l : List Doc} {d x : Doc} (h : x ∈ applyPullDoc l d) :
    x ∈ l ∨ x = d := by
  rw [applyPullDoc_eq] at h
  cases hf : l.find? (byId d.id) with
  | none =>
    rw [hf] at h
    rcases List.mem_append.mp h with hx | hx
    · exact Or.inl hx
    · exact Or.inr (List.mem_singleton.mp hx)
  | some e =>
    rw [hf] at h
    replace h : x ∈ (if e.updated_at < d.updated_at then setDoc l d else l) := h
    by_cases hc : e.updated_at < d.updated_at
    · rw [if_pos hc] at h
      obtain ⟨a, ha, hax⟩ := List.mem_map.mp h
      by_cases hid : (a.id == d.id) = true
      · rw [if_pos hid] at hax
        exact Or.inr hax.symm
      · rw [if_neg hid] at hax
        exact Or.inl (hax ▸ ha)
    · rw [if_neg hc] at h
      exact Or.inl h

theorem mem_applyPullDocs {ds : List Doc} {l : List Doc} {x : Doc}
    (h : x ∈ applyPullDocs l ds) :
    x ∈ l ∨ x ∈ ds := by
  induction ds generalizing l with
  | nil => exact Or.inl h
  | cons e rest ih =>
    have h1 : applyPullDocs l (e :: rest) = applyPullDocs (applyPullDoc l e) rest := rfl
    rw [h1] at h
    rcases ih h with hx | hx
    · rcases mem_applyPullDoc hx with hy | hy
      · exact Or.inl hy
      · exact Or.inr (hy ▸ List.mem_cons_self e rest)
    · exact Or.inr (List.mem_cons_of_mem e hx)

theorem mem_upsertOne {remote : List Doc} {r x : Doc} (h : x ∈ upsertOne remote r) :
    x ∈ remote ∨ x = r := by
  unfold upsertOne at h
  by_cases ha : (remote.any (fun x => x.id == r.id)) = true
  · rw [if_pos ha] at h
    obtain ⟨a, haa, hax⟩ := List.mem_map.mp h
    by_cases hid : (a.id == r.id) = true
    · rw [if_pos hid] at hax
      exact Or.inr hax.symm
    · rw [if_neg hid] at hax
      exact Or.inl (hax ▸ haa)
  · rw [if_neg ha] at h
    rcases List.mem_append.mp h with hx | hx
    · exact Or.inl hx
    · exact Or.inr (List.mem_singleton.mp hx)

theorem mem_upsertAll {rs : List Doc} {remote : List Doc} {x : Doc}
    (h : x ∈ upsertAll remote rs) :
    x ∈ remote ∨ x ∈ rs := by
  induction rs generalizing remote with
  | nil => exact Or.inl h
  | cons r rest ih =>
    have h1 : upsertAll remote (r :: rest) = upsertAll (upsertOne remote r) rest := rfl
    rw [h1] at h
    rcases ih h with hx | hx
    · rcases mem_upsertOne hx with hy | hy
      · exact Or.inl hy
      · exact Or.inr (hy ▸ List.mem_cons_self r rest)
    · exact Or.inr (List.mem_cons_of_mem r hx)

theorem mem_deliveredEvents {feed : List FeedEvent} {t : String} {e : FeedEvent}
    (h : e ∈ deliveredEvents feed t) :
    e ∈ feed ∧ e.doc.congregation_id = t := by
  unfold deliveredEvents at h
  have := List.mem_filter.mp h
  simpa using this

theorem find?_eraseP_self {l : List Doc} {j : String}
    (hnd : (l.map Doc.id).Nodup) :
    (l.eraseP (byId j)).find? (byId j) = none := by
  induction l with
  | nil => rfl
  | cons a l ih =>
    rw [List.map_cons, List.nodup_cons] at hnd
    obtain ⟨ha, hl⟩ := hnd
    by_cases h : a.id = j
    · rw [List.eraseP_cons_of_pos (by simp [byId, h])]
      rw [List.find?_eq_none]
      intro x hx
      simp only [byId, beq_iff_eq]
      intro hxj
      have : a.id ∈ l.map Doc.id := by
        rw [h, ← hxj]
        exact List.mem_map_of_mem Doc.id hx
      exact ha this
    · rw [List.eraseP_cons_of_neg (by simp [byId, h]), find?_byId_cons, if_neg h]
      exact ih hl

theorem find?_eraseP_ne {l : List Doc} {j i : String} (hij : i ≠ j) :
    (l.eraseP (byId j)).find? (byId i) = l.find? (byId i) := by
  induction l with
  | nil => rfl
  | cons a l ih =>
    by_cases h : a.id = j
    · rw [List.eraseP_cons_of_pos (by simp [byId, h]), find?_byId_cons,
        if_neg (fun hha => hij (hha.symm.trans h))]
    · rw [List.eraseP_cons_of_neg (by simp [byId, h]), find?_byId_cons, find?_byId_cons]
      by_cases hai : a.id = i
      · rw [if_pos hai, if_pos hai]
      · rw [if_neg hai, if_neg hai]
        exact ih

/-! Claim theorems. -/

/-- C1: newer-wins pull.  For a document present both locally (found under its
id) and among the remote rows fetched by the pull query, after
`pullFromSupabase` the local copy under that id is the remote version exactly
when the remote `updated_at` is strictly greater, and the unchanged local
version otherwise — in particular a tie retains the local document and the
remote version is discarded. -/
theorem pull_newer_wins (R L : List Doc) (st : RepState) (A : String)
    (since : Option Nat) (dl dr : Doc)
    (hR : (R.map Doc.id).Nodup)
    (hL : L.find? (byId dr.id) = some dl)
    (hdr : dr ∈ remoteQuery R A since) :
    ((pullFromSupabase R L st A since false).localColl).find? (byId dr.id)
      = some (if dl.updated_at < dr.updated_at then dr else dl) := by
  rw [pull_localColl]
  exact applyPullDocs_newer_wins (remoteQuery_ids_nodup hR) hdr hL

/-- Witness for C1 at a concrete store: remote timestamp 7 beats local 3, so the
local copy becomes the remote document. -/
theorem pull_newer_wins_witness :
    ((([⟨"x", "A", 7, "r"⟩] : List Doc).map Doc.id).Nodup
    ∧ ([⟨"x", "A", 3, "l"⟩] : List Doc).find? (byId "x") = some ⟨"x", "A", 3, "l"⟩
    ∧ (⟨"x", "A", 7, "r"⟩ : Doc) ∈ remoteQuery [⟨"x", "A", 7, "r"⟩] "A" none)
    ∧ ((pullFromSupabase [⟨"x", "A", 7, "r"⟩] [⟨"x", "A", 3, "l"⟩]
          initialRepState "A" none false).localColl).find? (byId "x")
        = some (if (Doc.mk "x" "A" 3 "l").updated_at < (Doc.mk "x" "A" 7 "r").updated_at
                then ⟨"x", "A", 7, "r"⟩ else ⟨"x", "A", 3, "l"⟩) :=
  ⟨⟨by decide, by decide, by decide⟩,
    pull_newer_wins [⟨"x", "A", 7, "r"⟩] [⟨"x", "A", 3, "l"⟩] initialRepState "A" none
      ⟨"x", "A", 3, "l"⟩ ⟨"x", "A", 7, "r"⟩ (by decide) (by decide) (by decide)⟩

/-- C3 counterexample: a realtime update whose incoming `updated_at` (3) is
strictly below the local one (10) still overwrites the local document, while
the pull merge on the same input keeps the local document — the realtime
insert/update path is NOT the newer-wins merge of pull. -/
theorem realtime_merge_counterexample :
    handleRealtimeEvent [⟨"x", "A", 10, "local"⟩]
        { eventType := RtEventType.update, doc := ⟨"x", "A", 3, "remote"⟩ }
      = [⟨"x", "A", 3, "remote"⟩]
    ∧ applyPullDoc [⟨"x", "A", 10, "local"⟩] ⟨"x", "A", 3, "remote"⟩
      = [⟨"x", "A", 10, "local"⟩] := by decide

/-- C3 (amended): the realtime insert/update handler is an unconditional
upsert, not the newer-wins merge of pull: after an insert or update event the
local document under the incoming id equals the incoming document whatever the
two `updated_at` values are, and documents under other ids are untouched. -/
theorem realtime_upsert_unconditional (L : List Doc) (ev : FeedEvent) (i : String)
    (hty : ev.eventType = RtEventType.insert ∨ ev.eventType = RtEventType.update) :
    (handleRealtimeEvent L ev).find? (byId ev.doc.id) = some ev.doc
    ∧ (i ≠ ev.doc.id →
        (handleRealtimeEvent L ev).find? (byId i) = L.find? (byId i)) := by
  cases hf : L.find? (byId ev.doc.id) with
  | none =>
    have hh : handleRealtimeEvent L ev = L ++ [ev.doc] := by
      rcases hty with h | h <;> simp [handleRealtimeEvent, h, hf]
    rw [hh]
    constructor
    · rw [List.find?_append, hf]
      have h1 : List.find? (byId ev.doc.id) [ev.doc] = some ev.doc := by
        simp [List.find?, byId]
      rw [h1]
      rfl
    · intro hi
      rw [List.find?_append]
      have hne : ¬ev.doc.id = i := fun h => hi h.symm
      have hb : (ev.doc.id == i) = false := beq_eq_false_iff_ne.mpr hne
      have h1 : List.find? (byId i) [ev.doc] = none := by
        simp [List.find?, byId, hb]
      rw [h1]
      cases L.find? (byId i) <;> rfl
  | some e =>
    have hh : handleRealtimeEvent L ev = setDoc L ev.doc := by
      rcases hty with h | h <;> simp [handleRealtimeEvent, h, hf]
    rw [hh]
    exact ⟨find?_setDoc_self hf, fun hi => find?_setDoc_ne hi⟩

/-- Witness for C3 (amended): an update event with an older timestamp replaces
the local document and leaves the document under another id alone. -/
theorem realtime_upsert_unconditional_witness :
    ((RtEventType.update = RtEventType.insert ∨ RtEventType.update = RtEventType.update)
    ∧ (handleRealtimeEvent [⟨"x", "A", 10, "l"⟩, ⟨"z", "A", 2, "w"⟩]
          { eventType := RtEventType.update, doc := ⟨"x", "A", 3, "r"⟩ }).find? (byId "x")
        = some ⟨"x", "A", 3, "r"⟩)
    ∧ ("z" ≠ "x" →
        (handleRealtimeEvent [⟨"x", "A", 10, "l"⟩, ⟨"z", "A", 2, "w"⟩]
            { eventType := RtEventType.update, doc := ⟨"x", "A", 3, "r"⟩ }).find? (byId "z")
          = ([⟨"x", "A", 10, "l"⟩, ⟨"z", "A", 2, "w"⟩] : List Doc).find? (byId "z")) :=
  ⟨⟨Or.inr rfl,
    (realtime_upsert_unconditional [⟨"x", "A", 10, "l"⟩, ⟨"z", "A", 2, "w"⟩]
      { eventType := RtEventType.update, doc := ⟨"x", "A", 3, "r"⟩ } "z" (Or.inr rfl)).1⟩,
    (realtime_upsert_unconditional [⟨"x", "A", 10, "l"⟩, ⟨"z", "A", 2, "w"⟩]
      { eventType := RtEventType.update, doc := ⟨"x", "A", 3, "r"⟩ } "z" (Or.inr rfl)).2⟩

/-- C4 counterexample: a successful push whose batch is [updated_at 5,
updated_at 3] (local store order) sets the cursor to 3, the `updated_at` of the
LAST record, not to the maximum 5 of the pushed documents. -/
theorem push_cursor_counterexample :
    (pushToSupabase [] [⟨"a", "A", 5, "p"⟩, ⟨"b", "A", 3, "q"⟩]
        initialRepState "A" false).result = Except.ok 2
    ∧ (pushToSupabase [] [⟨"a", "A", 5, "p"⟩, ⟨"b", "A", 3, "q"⟩]
        initialRepState "A" false).state.lastSync = some 3
    ∧ (⟨"a", "A", 5, "p"⟩ : Doc)
        ∈ pushBatch [⟨"a", "A", 5, "p"⟩, ⟨"b", "A", 3, "q"⟩] "A" none
    ∧ (3 : Nat) < 5 := by
  refine ⟨rfl, rfl, by decide, by decide⟩

/-- C4 (amended): a push that transmits a non-empty batch advances the cursor
to the `updated_at` of the last record of the batch in local query order —
which coincides with the maximum only when the last record happens to carry
it. -/
theorem push_cursor_last_record (R L : List Doc) (st : RepState) (t : String)
    (r : Doc)
    (h : (pushBatch L t st.lastSync).getLast? = some r) :
    (pushToSupabase R L st t false).state.lastSync = some r.updated_at := by
  rw [push_state_lastSync, h]

/-- Witness for C4 (amended) on the two-document batch. -/
theorem push_cursor_last_record_witness :
    ((pushBatch [⟨"a", "A", 5, "p"⟩, ⟨"b", "A", 3, "q"⟩] "A"
        initialRepState.lastSync).getLast? = some ⟨"b", "A", 3, "q"⟩)
    ∧ (pushToSupabase [] [⟨"a", "A", 5, "p"⟩, ⟨"b", "A", 3, "q"⟩]
        initialRepState "A" false).state.lastSync = some (Doc.mk "b" "A" 3 "q").updated_at :=
  ⟨by decide,
    push_cursor_last_record [] [⟨"a", "A", 5, "p"⟩, ⟨"b", "A", 3, "q"⟩]
      initialRepState "A" ⟨"b", "A", 3, "q"⟩ (by decide)⟩

/-- C5 counterexample: pulling a single remote document that loses the
timestamp comparison returns 1 although nothing was inserted or updated
locally (the local collection is unchanged), so the return value is not
the inserted-plus-updated count. -/
theorem pull_count_counterexample :
    (pullFromSupabase [⟨"x", "A", 3, "r"⟩] [⟨"x", "A", 5, "l"⟩]
        initialRepState "A" none false).result = Except.ok 1
    ∧ (pullFromSupabase [⟨"x", "A", 3, "r"⟩] [⟨"x", "A", 5, "l"⟩]
        initialRepState "A" none false).localColl = [⟨"x", "A", 5, "l"⟩] := by
  refine ⟨rfl, by decide⟩

/-- C5 (amended): pull returns the number of remote documents fetched by the
query — 0 when the query returns none — counting also documents that were
discarded because the local copy won the timestamp comparison. -/
theorem pull_returns_fetched_count (R L : List Doc) (st : RepState) (t : String)
    (s : Option Nat) :
    (pullFromSupabase R L st t s false).result
      = Except.ok (remoteQuery R t s).length :=
  pull_result_ok R L st t s

/-- C6: delete-always-wins on the realtime feed.  A delete event removes the
local document under the event's id with no `updated_at` comparison (the
statement quantifies over all timestamps, so it holds even when the local copy
is newer than the deleted remote row), and leaves documents under other ids
untouched. -/
theorem realtime_delete_always_wins (L : List Doc) (ev : FeedEvent) (i : String)
    (hty : ev.eventType = RtEventType.delete)
    (hnd : (L.map Doc.id).Nodup) :
    (handleRealtimeEvent L ev).find? (byId ev.doc.id) = none
    ∧ (i ≠ ev.doc.id →
        (handleRealtimeEvent L ev).find? (byId i) = L.find? (byId i)) := by
  cases hf : L.find? (byId ev.doc.id) with
  | none =>
    have hh : handleRealtimeEvent L ev = L := by
      simp [handleRealtimeEvent, hty, hf]
    rw [hh]
    exact ⟨hf, fun _ => rfl⟩
  | some ex =>
    have hexid : ex.id = ev.doc.id := by
      have h := List.find?_some hf
      simpa [byId] using h
    have hh : handleRealtimeEvent L ev = L.eraseP (byId ev.doc.id) := by
      simp [handleRealtimeEvent, hty, hf, hexid]
    rw [hh]
    exact ⟨find?_eraseP_self hnd, fun hi => find?_eraseP_ne hi⟩

/-- Witness for C6: the local copy has `updated_at` 10, far newer than the
deleted remote row's 1, and is removed regardless. -/
theorem realtime_delete_always_wins_witness :
    (RtEventType.delete = RtEventType.delete
    ∧ (([⟨"x", "A", 10, "l"⟩, ⟨"z", "A", 2, "w"⟩] : List Doc).map Doc.id).Nodup
    ∧ (handleRealtimeEvent [⟨"x", "A", 10, "l"⟩, ⟨"z", "A", 2, "w"⟩]
          { eventType := RtEventType.delete, doc := ⟨"x", "A", 1, "gone"⟩ }).find? (byId "x")
        = none)
    ∧ ("z" ≠ "x" →
        (handleRealtimeEvent [⟨"x", "A", 10, "l"⟩, ⟨"z", "A", 2, "w"⟩]
            { eventType := RtEventType.delete, doc := ⟨"x", "A", 1, "gone"⟩ }).find? (byId "z")
          = ([⟨"x", "A", 10, "l"⟩, ⟨"z", "A", 2, "w"⟩] : List Doc).find? (byId "z")) :=
  ⟨⟨rfl, by decide,
    (realtime_delete_always_wins [⟨"x", "A", 10, "l"⟩, ⟨"z", "A", 2, "w"⟩]
      { eventType := RtEventType.delete, doc := ⟨"x", "A", 1, "gone"⟩ } "z" rfl (by decide)).1⟩,
    (realtime_delete_always_wins [⟨"x", "A", 10, "l"⟩, ⟨"z", "A", 2, "w"⟩]
      { eventType := RtEventType.delete, doc := ⟨"x", "A", 1, "gone"⟩ } "z" rfl (by decide)).2⟩

/-- C9 counterexample: after `initDatabase` for tenant A has populated the
module-level cache, `initDatabase` for tenant B returns tenant A's instance —
not a store namespaced for B. -/
theorem initDatabase_cache_counterexample :
    (initDatabase (initDatabase none "A").2 "B").1 = { name := "territory_mapper_A" }
    ∧ (initDatabase (initDatabase none "A").2 "B").1.name ≠ dbName "B" := by decide

/-- C9 (amended): a first open (empty cache) creates and caches an instance
namespaced by the requesting tenant, and every later open — for the same tenant
or any other — returns that cached instance unchanged; a different tenant never
receives a fresh store while the cache is populated. -/
theorem initDatabase_cache_behavior (tidA tidB : String) :
    (initDatabase none tidA).1 = { name := dbName tidA }
    ∧ (initDatabase none tidA).2 = some { name := dbName tidA }
    ∧ (initDatabase (initDatabase none tidA).2 tidB).1 = { name := dbName tidA }
    ∧ (initDatabase (initDatabase none tidA).2 tidA).1 = { name := dbName tidA } :=
  ⟨rfl, rfl, rfl, rfl⟩

/-- C2 counterexample: with an empty cursor, a sync whose pull fetches a remote
document advances `lastSync` before the push runs; the push then transmits 0
documents although 2 local documents pass the pre-pull cursor (none) — so the
push did not use the cursor recorded before the pull started. -/
theorem syncCollection_cursor_counterexample :
    (syncCollection [⟨"x", "A", 5, "r"⟩] [⟨"y", "A", 4, "l"⟩]
        initialRepState "A" false false).result = Except.ok (1, 0)
    ∧ (syncCollection [⟨"x", "A", 5, "r"⟩] [⟨"y", "A", 4, "l"⟩]
        initialRepState "A" false false).remote = [⟨"x", "A", 5, "r"⟩]
    ∧ (pushBatch (syncCollection [⟨"x", "A", 5, "r"⟩] [⟨"y", "A", 4, "l"⟩]
        initialRepState "A" false false).localColl "A" initialRepState.lastSync).length = 2 := by
  refine ⟨rfl, by decide, by decide⟩

/-- C2 (amended): within one `syncCollection` the pull completes first and the
push consumes the pull's outputs — but the push is bounded by the post-pull
cursor, which the pull advances to the `updated_at` of the last fetched
document whenever it fetched any; the two directions share the same cursor
only when the pull fetched nothing. -/
theorem syncCollection_pull_then_push (R L : List Doc) (st : RepState) (t : String) :
    (syncCollection R L st t false false).localColl
        = (pullFromSupabase R L st t st.lastSync false).localColl
    ∧ (syncCollection R L st t false false).remote
        = (pushToSupabase R (pullFromSupabase R L st t st.lastSync false).localColl
            (pullFromSupabase R L st t st.lastSync false).state t false).remote
    ∧ (pullFromSupabase R L st t st.lastSync false).state.lastSync
        = (match (remoteQuery R t st.lastSync).getLast? with
           | some d => some d.updated_at
           | none => st.lastSync) := by
  obtain ⟨h1, h2, h3⟩ := syncCollection_components R L st t
  exact ⟨h1, h2, pull_state_lastSync R L st t st.lastSync⟩

/-- C8: tenant isolation.  With distinct tenants A and B, the pull query only
fetches rows of tenant A; every document the pull adds to the local store was
fetched, hence belongs to A; the push batch and every row the push adds to the
remote store belong to A; the subscription filter only delivers events whose
row belongs to A.  No step reads, writes, or delivers a tenant-B document. -/
theorem tenant_isolation (R L : List Doc) (feed : List FeedEvent) (st : RepState)
    (since : Option Nat) (A B : String) (hAB : A ≠ B) :
    (∀ d ∈ remoteQuery R A since, d.congregation_id ≠ B)
    ∧ (∀ d ∈ (pullFromSupabase R L st A since false).localColl,
        d ∈ L ∨ d.congregation_id ≠ B)
    ∧ (∀ d ∈ pushBatch L A st.lastSync, d.congregation_id ≠ B)
    ∧ (∀ d ∈ (pushToSupabase R L st A false).remote, d ∈ R ∨ d.congregation_id ≠ B)
    ∧ (∀ e ∈ deliveredEvents feed A, e.doc.congregation_id ≠ B) := by
  have hq : ∀ d ∈ remoteQuery R A since, d.congregation_id ≠ B := by
    intro d hd hB
    exact hAB (((mem_remoteQuery.mp hd).2.1).symm.trans hB)
  have hp : ∀ d ∈ pushBatch L A st.lastSync, d.congregation_id ≠ B := by
    intro d hd hB
    exact hAB (((mem_pushBatch.mp hd).2.1).symm.trans hB)
  refine ⟨hq, ?_, hp, ?_, ?_⟩
  · intro d hd
    rw [pull_localColl] at hd
    rcases mem_applyPullDocs hd with hx | hx
    · exact Or.inl hx
    · exact Or.inr (hq d hx)
  · intro d hd
    rw [push_remote] at hd
    rcases mem_upsertAll hd with hx | hx
    · exact Or.inl hx
    · exact Or.inr (hp d hx)
  · intro e he hB
    exact hAB (((mem_deliveredEvents he).2).symm.trans hB)

/-- Witness for C8 with one row, one local document, and one feed event per
tenant. -/
theorem tenant_isolation_witness :
    ("A" : String) ≠ "B"
    ∧ ((∀ d ∈ remoteQuery [⟨"x", "A", 1, "r"⟩, ⟨"z", "B", 2, "s"⟩] "A" none,
          d.congregation_id ≠ "B")
      ∧ (∀ d ∈ (pullFromSupabase [⟨"x", "A", 1, "r"⟩, ⟨"z", "B", 2, "s"⟩]
            [⟨"w", "A", 3, "l"⟩] initialRepState "A" none false).localColl,
          d ∈ [⟨"w", "A", 3, "l"⟩] ∨ d.congregation_id ≠ "B")
      ∧ (∀ d ∈ pushBatch [⟨"w", "A", 3, "l"⟩] "A" initialRepState.lastSync,
          d.congregation_id ≠ "B")
      ∧ (∀ d ∈ (pushToSupabase [⟨"x", "A", 1, "r"⟩, ⟨"z", "B", 2, "s"⟩]
            [⟨"w", "A", 3, "l"⟩] initialRepState "A" false).remote,
          d ∈ [⟨"x", "A", 1, "r"⟩, ⟨"z", "B", 2, "s"⟩] ∨ d.congregation_id ≠ "B")
      ∧ (∀ e ∈ deliveredEvents
            [{ eventType := RtEventType.insert, doc := ⟨"x", "A", 1, "r"⟩ },
             { eventType := RtEventType.insert, doc := ⟨"z", "B", 2, "s"⟩ }] "A",
          e.doc.congregation_id ≠ "B")) :=
  ⟨by decide,
    tenant_isolation [⟨"x", "A", 1, "r"⟩, ⟨"z", "B", 2, "s"⟩] [⟨"w", "A", 3, "l"⟩]
      [{ eventType := RtEventType.insert, doc := ⟨"x", "A", 1, "r"⟩ },
       { eventType := RtEventType.insert, doc := ⟨"z", "B", 2, "s"⟩ }]
      initialRepState none "A" "B" (by decide)⟩

/-- C10: the replication-state map is keyed by collection name only, so a
cursor advanced by tenant A's sync bounds tenant B's next pull and push on the
same collection: any tenant-B document whose `updated_at` is not strictly past
that cursor is excluded both from the remote query a B pull issues with the
shared state's cursor and from the batch a B push selects with it. -/
theorem replication_state_shared_across_tenants (W : World) (A B : String)
    (c : CollName) (cur : Nat) (d : Doc)
    (h1 : (((syncCollectionW W c A).world.states.get c).lastSync) = some cur)
    (hd : d.congregation_id = B) (hts : d.updated_at ≤ cur) :
    d ∉ remoteQuery ((syncCollectionW W c A).world.remote.get c) B
        (((syncCollectionW W c A).world.states.get c).lastSync)
    ∧ d ∉ pushBatch ((syncCollectionW W c A).world.localDb.get c) B
        (((syncCollectionW W c A).world.states.get c).lastSync) := by
  rw [h1]
  constructor
  · intro hmem
    exact absurd ((mem_remoteQuery.mp hmem).2.2 cur rfl) (Nat.not_lt.mpr hts)
  · intro hmem
    exact absurd ((mem_pushBatch.mp hmem).2.2 cur rfl) (Nat.not_lt.mpr hts)

/-- Witness for C10: after tenant A's territories sync pushed the shared cursor
to 5, tenant B's pull query and push batch with that cursor both skip B's
document with `updated_at` 4. -/
theorem replication_state_shared_witness :
    ((((syncCollectionW sampleWorldTenantA CollName.territories "A").world.states.get
          CollName.territories).lastSync) = some 5
    ∧ (Doc.mk "y" "B" 4 "p").congregation_id = "B"
    ∧ (Doc.mk "y" "B" 4 "p").updated_at ≤ 5)
    ∧ ((⟨"y", "B", 4, "p"⟩ : Doc) ∉ remoteQuery
          ((syncCollectionW sampleWorldTenantA CollName.territories "A").world.remote.get
            CollName.territories) "B"
          (((syncCollectionW sampleWorldTenantA CollName.territories "A").world.states.get
            CollName.territories).lastSync)
      ∧ (⟨"y", "B", 4, "p"⟩ : Doc) ∉ pushBatch
          ((syncCollectionW sampleWorldTenantA CollName.territories "A").world.localDb.get
            CollName.territories) "B"
          (((syncCollectionW sampleWorldTenantA CollName.territories "A").world.states.get
            CollName.territories).lastSync)) :=
  ⟨⟨by decide, rfl, by decide⟩,
    replication_state_shared_across_tenants sampleWorldTenantA "A" "B"
      CollName.territories 5 ⟨"y", "B", 4, "p"⟩ (by decide) rfl (by decide)⟩


theorem syncAllStep_eq (t : String) (res : PerColl (Nat × Nat)) (Wc : World)
    (c : CollName) :
    syncAllStep t (res, Wc) c
      = (res.set c (match (syncCollectionW Wc c t).result with
                    | Except.ok r => r
                    | Except.error _ => (0, 0)),
         (syncCollectionW Wc c t).world) := by
  cases h : (syncCollectionW Wc c t).result with
  | ok r => simp only [syncAllStep, h]
  | error e => simp only [syncAllStep, h]

/-- C7: partial-failure isolation in `syncAll`, for every world and tenant and
for any combination of per-collection failures.  The orchestrator runs the
sync of each of territories, houses, and assignments in sequence, each on the
world left by the previous ones, whatever the earlier syncs did; the returned
record has an entry for every collection, equal to the genuine sync result
when that collection's sync succeeded and to (0, 0) when it threw; and
`syncAll` itself is total — no per-collection exception escapes it. -/
theorem syncAll_failure_isolation (W : World) (t : String) :
    ((syncAll W t).1.get CollName.territories
        = (match (syncCollectionW W CollName.territories t).result with
           | Except.ok r => r
           | Except.error _ => (0, 0)))
    ∧ ((syncAll W t).1.get CollName.houses
        = (match (syncCollectionW (syncCollectionW W CollName.territories t).world
              CollName.houses t).result with
           | Except.ok r => r
           | Except.error _ => (0, 0)))
    ∧ ((syncAll W t).1.get CollName.assignments
        = (match (syncCollectionW (syncCollectionW (syncCollectionW W
              CollName.territories t).world CollName.houses t).world
              CollName.assignments t).result with
           | Except.ok r => r
           | Except.error _ => (0, 0))) := by
  have e0 : syncAll W t
      = syncAllStep t (syncAllStep t (syncAllStep t
          ((⟨(0, 0), (0, 0), (0, 0)⟩ : PerColl (Nat × Nat)), W)
          CollName.territories) CollName.houses) CollName.assignments := rfl
  rw [e0, syncAllStep_eq, syncAllStep_eq, syncAllStep_eq]
  exact ⟨rfl, rfl, rfl⟩
